import Mathlib

/-!
Verification of the image optimize-and-upload pipeline in
`src/pkgs/trigger/src/trigger/example.ts`.

The TypeScript function `upload_image_to_digital_ocean_spaces` is embedded as
a pure Lean function over an explicit `World` that supplies the behaviour of
the external collaborators (the local filesystem, HTTP fetch, the sharp image
transcoder and the object-storage upload client).  Every observable effect the
function performs is recorded in an event trace, so that ordering properties
("no upload is attempted after a failed download") become statements about the
trace.  Byte buffers are lists of naturals; strings are Lean strings; machine
integers do not occur in the source.
-/

set_option autoImplicit false

namespace TriggerSharp

/-- Runtime shape of `input.source`.  TypeScript erases the
`OptimizeImageInputLocal | OptimizeImageInputRemote` union at runtime: the
code inspects the string field `source.type` and reads `file_path` or
`file_url` accordingly, so the embedding keeps all three fields and lets
`type` range over arbitrary strings (the `else` branch of the source handles
anything that is neither "local" nor "remote"). -/
structure OptimizeImageSource where
  type : String
  file_path : String
  file_url : String
  deriving DecidableEq, Repr

/-- `OptimizeImageDestination` from the source. -/
structure OptimizeImageDestination where
  bucket_name : String
  object_folder : String
  object_slug : String
  deriving DecidableEq, Repr

/-- `OptimizeImageInput` from the source. -/
structure OptimizeImageInput where
  source : OptimizeImageSource
  dest : OptimizeImageDestination
  deriving DecidableEq, Repr

/-- `OptimizeImageOutput` from the source. -/
structure OptimizeImageOutput where
  optimized_img_url : String
  deriving DecidableEq, Repr

/-- The two environment variables read at the top of
`upload_image_to_digital_ocean_spaces`; `none` models an unset variable. -/
structure Env where
  DIGITAL_OCEAN_SPACES_ACCESS_KEY : Option String
  DIGITAL_OCEAN_SPACES_SECRET_KEY : Option String
  deriving DecidableEq, Repr

/-- Equality of pipeline results is decidable, so concrete runs can be
checked by evaluation. -/
instance {e a : Type} [DecidableEq e] [DecidableEq a] : DecidableEq (Except e a) := fun x y =>
  match x, y with
  | .ok v, .ok w =>
    if h : v = w then isTrue (by rw [h]) else isFalse (fun hc => h (by injection hc))
  | .error v, .error w =>
    if h : v = w then isTrue (by rw [h]) else isFalse (fun hc => h (by injection hc))
  | .ok _, .error _ => isFalse (fun hc => Except.noConfusion hc)
  | .error _, .ok _ => isFalse (fun hc => Except.noConfusion hc)

/-- JavaScript truthiness of an optional string: `undefined` and the empty
string are falsy, every other string is truthy.  The source guards on
`!ACCESS_KEY || !SECRET_KEY`. -/
def truthy : Option String → Bool
  | none => false
  | some s => s ≠ ""

/-- One observable effect of the pipeline, in the order it happens. -/
inductive Event where
  | fileRead (path : String)
  | fetchReq (url : String)
  | transcode (input : List Nat) (quality : Nat)
  | uploadReq (bucket : String) (key : String) (body : List Nat)
      (acl : String) (contentType : String)
  | consoleLog (msg : String)
  | consoleError (msg : String)
  deriving DecidableEq, Repr

/-- Whether an event is an invocation of the transcoding step. -/
def is_transcode : Event → Bool
  | .transcode _ _ => true
  | _ => false

/-- Whether an event is an invocation of the storage-client upload. -/
def is_upload : Event → Bool
  | .uploadReq _ _ _ _ _ => true
  | _ => false

/-- Whether an event is an acquisition effect (file read or HTTP fetch). -/
def is_acquisition : Event → Bool
  | .fileRead _ => true
  | .fetchReq _ => true
  | _ => false

/-- Behaviour of the external collaborators for one invocation.
`fsFiles` is the local filesystem content (modelled from the spec: Node
`fs.readFile` is not in src/); `fetchResp` is the HTTP layer, returning
either a network-level failure message or (status, statusText, body);
`decodable` and `avifEncode` model the sharp transcoder (modelled from the
spec, sharp is not in src/: transcoding fails exactly on non-decodable
input, otherwise encodes at the given quality); `uploadOutcome` is the
storage client result of `Upload.done`. -/
structure World where
  fsFiles : String → Option (List Nat)
  fetchResp : String → Except String (Nat × String × List Nat)
  decodable : List Nat → Bool
  avifEncode : List Nat → Nat → List Nat
  uploadOutcome : String → String → List Nat → Except String Unit

/-! ## Model of Node `path.posix.join`

The source computes the object key with `path.posix.join(folder, fileName)`.
`join` concatenates the non-empty arguments with "/" and then normalizes the
result (collapsing repeated slashes, resolving "." and ".." segments,
preserving a trailing slash, returning "." for the empty path).  The model
below follows the documented Node algorithm on character lists. -/

/-- Split a character list on the slash character; always non-empty
(splitting the empty list yields one empty segment, like splitting the empty
string). -/
def splitSlash : List Char → List (List Char)
  | [] => [[]]
  | c :: cs =>
    if c = '/' then [] :: splitSlash cs
    else
      match splitSlash cs with
      | [] => [[c]]
      | s :: ss => (c :: s) :: ss

/-- Join segments with a slash, the inverse direction of `splitSlash`. -/
def joinSegs : List (List Char) → List Char
  | [] => []
  | [s] => s
  | s :: rest => s ++ '/' :: joinSegs rest

/-- Resolve "." and ".." segments left to right with an accumulator holding
the already-resolved prefix in reverse.  On an absolute path a ".." at the
root is dropped; on a relative path leading ".."s accumulate. -/
def resolveDots (isAbs : Bool) : List (List Char) → List (List Char) → List (List Char)
  | acc, [] => acc.reverse
  | acc, s :: rest =>
    if s = ['.'] then resolveDots isAbs acc rest
    else if s = ['.', '.'] then
      match acc with
      | [] =>
        if isAbs then resolveDots isAbs [] rest
        else resolveDots isAbs [['.', '.']] rest
      | a :: as =>
        if a = ['.', '.'] then resolveDots isAbs (s :: a :: as) rest
        else resolveDots isAbs as rest
    else resolveDots isAbs (s :: acc) rest

/-- Reassembly step of Node `path.posix.normalize`: given the absolute and
trailing-slash flags of the original path and its non-empty segments,
resolve dots, rejoin, and restore the flags. -/
def posixNormalizeCore (isAbs trailing : Bool) (segs : List (List Char)) : List Char :=
  if joinSegs (resolveDots isAbs [] segs) = [] then
    if isAbs then ['/'] else if trailing then ['.', '/'] else ['.']
  else
    (if isAbs then '/' :: joinSegs (resolveDots isAbs [] segs)
     else joinSegs (resolveDots isAbs [] segs)) ++
      (if trailing then ['/'] else [])

/-- Node `path.posix.normalize` on a character list. -/
def posixNormalize (p : List Char) : List Char :=
  if p = [] then ['.']
  else
    posixNormalizeCore (decide (p.head? = some '/')) (decide (p.getLast? = some '/'))
      ((splitSlash p).filter (fun s => s ≠ []))

/-- Node `path.posix.join` restricted to the two arguments the source passes:
non-empty parts are joined with "/" and the result normalized; joining two
empty strings yields ".". -/
def posix_join (a b : String) : String :=
  if a.data = [] ∧ b.data = [] then "."
  else if a.data = [] then String.mk (posixNormalize b.data)
  else if b.data = [] then String.mk (posixNormalize a.data)
  else String.mk (posixNormalize (a.data ++ '/' :: b.data))

/-! ## The pipeline -/

/-- `const REGION = 'nyc3'`. -/
def REGION : String := "nyc3"

/-- `const ENDPOINT` (not observable in any claim, kept for completeness). -/
def ENDPOINT : String := "https://" ++ REGION ++ ".digitaloceanspaces.com"

/-- `const fileExtension = 'avif'`. -/
def fileExtension : String := "avif"

/-- The error message thrown when a credential is missing. -/
def credentialsErrorMessage : String :=
  "DigitalOcean Spaces credentials are not set in environment variables."

/-- Modelled from the spec: Node `fs.readFile` is not in src/.  Per spec
section 4.1 the local variant returns the bytes stored on disk at the path
and fails with a read failure when the path does not exist or is
unreadable; `World.fsFiles` is the disk content. -/
def fs_readFile (w : World) (p : String) : Except String (List Nat) :=
  match w.fsFiles p with
  | some bytes => .ok bytes
  | none => .error ("ENOENT: no such file or directory, open \x27" ++ p ++ "\x27")

/-- `download_image` from the source: one fetch; a rejected fetch propagates
its message, a response with `!response.ok` (status outside 200..299) throws
the formatted failure message, otherwise the body bytes are returned. -/
def download_image (w : World) (url : String) :
    Except String (List Nat) × List Event :=
  match w.fetchResp url with
  | .error e => (.error e, [Event.fetchReq url])
  | .ok (status, statusText, body) =>
    if 200 ≤ status ∧ status ≤ 299 then (.ok body, [Event.fetchReq url])
    else
      (.error ("Failed to download image from " ++ url ++ ": " ++ statusText),
       [Event.fetchReq url])

/-- Modelled from the spec: the sharp library is not in src/.  Per spec
section 4.2, `sharp(buf).avif(quality).toBuffer()` fails with a transcoding
error exactly when the input bytes are not a decodable image, and otherwise
encodes at the given quality. -/
def sharp_avif_toBuffer (w : World) (buf : List Nat) (quality : Nat) :
    Except String (List Nat) :=
  if w.decodable buf then .ok (w.avifEncode buf quality)
  else .error "Input buffer contains unsupported image format"

/-- The object key computed before the try block:
`path.posix.join(folder, slug ++ "-" ++ uuid ++ "." ++ fileExtension)`.
The freshly generated `uuidv4()` value is a parameter of the embedding. -/
def object_key (dest : OptimizeImageDestination) (uuid : String) : String :=
  posix_join dest.object_folder
    (dest.object_slug ++ "-" ++ uuid ++ "." ++ fileExtension)

/-- The public CDN URL built on success. -/
def result_url (dest : OptimizeImageDestination) (objectKey : String) : String :=
  "https://" ++ dest.bucket_name ++ "." ++ REGION ++
    ".cdn.digitaloceanspaces.com/" ++ objectKey

/-- The success log line printed by `console.log`. -/
def success_log (source : OptimizeImageSource) (dest : OptimizeImageDestination)
    (objectKey : String) : String :=
  "File \x27" ++ (if source.type = "local" then source.file_path else source.file_url) ++
    "\x27 uploaded successfully to \x27" ++ dest.bucket_name ++ "/" ++ objectKey ++ "\x27."

/-- The acquisition branch inside the try block: local read, remote download,
or the `Invalid input type` throw. -/
def acquire (w : World) (s : OptimizeImageSource) :
    Except String (List Nat) × List Event :=
  if s.type = "local" then
    (fs_readFile w s.file_path, [Event.fileRead s.file_path])
  else if s.type = "remote" then
    download_image w s.file_url
  else
    (.error "Invalid input type", [])

/-- The body of the try block: acquire, transcode at quality 85, upload with
public-read ACL and the avif content type, then return the CDN URL (after
the success `console.log`). -/
def try_body (w : World) (input : OptimizeImageInput) (objectKey : String) :
    Except String OptimizeImageOutput × List Event :=
  match acquire w input.source with
  | (.error e, t) => (.error e, t)
  | (.ok imageBuffer, t) =>
    match sharp_avif_toBuffer w imageBuffer 85 with
    | .error e => (.error e, t ++ [Event.transcode imageBuffer 85])
    | .ok avifBuffer =>
      match w.uploadOutcome input.dest.bucket_name objectKey avifBuffer with
      | .error e =>
        (.error e,
         t ++ [Event.transcode imageBuffer 85,
               Event.uploadReq input.dest.bucket_name objectKey avifBuffer
                 "public-read" "image/avif"])
      | .ok _ =>
        (.ok ⟨result_url input.dest objectKey⟩,
         t ++ [Event.transcode imageBuffer 85,
               Event.uploadReq input.dest.bucket_name objectKey avifBuffer
                 "public-read" "image/avif",
               Event.consoleLog (success_log input.source input.dest objectKey)])

/-- `upload_image_to_digital_ocean_spaces` from the source: read the two
credential environment variables and throw before anything else if either is
falsy; otherwise compute the object key and run the try block; a caught
error is logged with `console.error` and rethrown unmodified. -/
def upload_image_to_digital_ocean_spaces (w : World) (env : Env) (uuid : String)
    (input : OptimizeImageInput) : Except String OptimizeImageOutput × List Event :=
  if !truthy env.DIGITAL_OCEAN_SPACES_ACCESS_KEY ||
     !truthy env.DIGITAL_OCEAN_SPACES_SECRET_KEY then
    (.error credentialsErrorMessage, [])
  else
    let objectKey := object_key input.dest uuid
    match try_body w input objectKey with
    | (.ok out, t) => (.ok out, t)
    | (.error e, t) => (.error e, t ++ [Event.consoleError e])

/-! ## Path safety and concrete fixtures -/

/-- A path-safe string in the sense of spec section 3: a single non-empty
path segment, containing no separator and not equal to the special
segments "." and "..", so that joining performs no normalization. -/
def path_safe (s : String) : Prop :=
  s.data ≠ [] ∧ '/' ∉ s.data ∧ s.data ≠ ['.'] ∧ s.data ≠ ['.', '.']

instance (s : String) : Decidable (path_safe s) := by
  unfold path_safe; infer_instance

/-- Environment with both credentials present. -/
def env0 : Env := ⟨some "AK", some "SK"⟩

/-- Environment with the access key unset. -/
def envMissing : Env := ⟨none, some "SK"⟩

/-- Destination fixture. -/
def dest0 : OptimizeImageDestination := ⟨"assets", "img", "hero"⟩

/-- Local-source input fixture. -/
def inpLocal : OptimizeImageInput := ⟨⟨"local", "/tmp/a.png", ""⟩, dest0⟩

/-- Remote-source input fixture. -/
def inpRemote : OptimizeImageInput := ⟨⟨"remote", "", "http://x/i.png"⟩, dest0⟩

/-- Input fixture whose source type is neither local nor remote. -/
def inpBadType : OptimizeImageInput := ⟨⟨"weird", "", ""⟩, dest0⟩

/-- A world where every collaborator succeeds: the fixture file exists, every
buffer decodes, and the upload completes. -/
def wOk : World where
  fsFiles := fun p => if p = "/tmp/a.png" then some [1, 2, 3] else none
  fetchResp := fun _ => .ok (200, "OK", [7, 7])
  decodable := fun _ => true
  avifEncode := fun b q => b ++ [q]
  uploadOutcome := fun _ _ _ => .ok ()

/-- A world whose HTTP layer answers 404 to every request. -/
def wHttp404 : World where
  fsFiles := fun _ => none
  fetchResp := fun _ => .ok (404, "Not Found", [])
  decodable := fun _ => true
  avifEncode := fun b q => b ++ [q]
  uploadOutcome := fun _ _ _ => .ok ()

/-! ## Lemmas about the path model -/

theorem splitSlash_no_slash (g : List Char) (hg : '/' ∉ g) : splitSlash g = [g] := by
  induction g with
  | nil => rfl
  | cons c cs ih =>
    have hc : ¬ c = '/' := fun h => hg (h ▸ List.mem_cons_self c cs)
    have hcs : '/' ∉ cs := fun h => hg (List.mem_cons_of_mem _ h)
    simp [splitSlash, hc, ih hcs]

theorem splitSlash_append (f g : List Char) (hf : '/' ∉ f) :
    splitSlash (f ++ '/' :: g) = f :: splitSlash g := by
  induction f with
  | nil => simp [splitSlash]
  | cons c cs ih =>
    have hc : ¬ c = '/' := fun h => hf (h ▸ List.mem_cons_self c cs)
    have hcs : '/' ∉ cs := fun h => hf (List.mem_cons_of_mem _ h)
    simp [splitSlash, hc, ih hcs]

theorem getLast?_cons_of_ne_nil (a : Char) (l : List Char) (hl : l ≠ []) :
    (a :: l).getLast? = l.getLast? := by
  obtain ⟨d, ds, rfl⟩ := List.exists_cons_of_ne_nil hl
  exact List.getLast?_cons_cons

theorem getLast?_ne_slash (l : List Char) (hl : l ≠ []) (h : '/' ∉ l) :
    l.getLast? ≠ some '/' := by
  rw [List.getLast?_eq_getLast l hl]
  intro hcon
  have hx : l.getLast hl = '/' := by injection hcon
  exact h (hx ▸ List.getLast_mem hl)

theorem posixNormalizeCore_two_segs (f g : List Char)
    (hf1 : f ≠ []) (hf3 : f ≠ ['.']) (hf4 : f ≠ ['.', '.'])
    (hg3 : g ≠ ['.']) (hg4 : g ≠ ['.', '.']) :
    posixNormalizeCore false false [f, g] = f ++ '/' :: g := by
  have hres : resolveDots false [] [f, g] = [f, g] := by
    simp [resolveDots, hf3, hf4, hg3, hg4]
  have hjoin : joinSegs [f, g] = f ++ '/' :: g := by
    simp [joinSegs]
  simp [posixNormalizeCore, hres, hjoin, hf1]

theorem posixNormalize_safe (f g : List Char)
    (hf1 : f ≠ []) (hf2 : '/' ∉ f) (hf3 : f ≠ ['.']) (hf4 : f ≠ ['.', '.'])
    (hg1 : g ≠ []) (hg2 : '/' ∉ g) (hg3 : g ≠ ['.']) (hg4 : g ≠ ['.', '.']) :
    posixNormalize (f ++ '/' :: g) = f ++ '/' :: g := by
  have hp : f ++ '/' :: g ≠ [] := by simp
  have hhead : (f ++ '/' :: g).head? ≠ some '/' := by
    obtain ⟨c, cs, rfl⟩ := List.exists_cons_of_ne_nil hf1
    have hc : c ≠ '/' := fun h => hf2 (h ▸ List.mem_cons_self c cs)
    simp [hc]
  have hlast : (f ++ '/' :: g).getLast? ≠ some '/' := by
    have h1 : (f ++ '/' :: g).getLast? = g.getLast? := by
      rw [List.getLast?_append, getLast?_cons_of_ne_nil _ _ hg1]
      obtain ⟨x, hx⟩ : ∃ x, g.getLast? = some x :=
        ⟨g.getLast hg1, List.getLast?_eq_getLast g hg1⟩
      rw [hx]
      rfl
    rw [h1]
    exact getLast?_ne_slash g hg1 hg2
  have hsplit : splitSlash (f ++ '/' :: g) = [f, g] := by
    rw [splitSlash_append f g hf2, splitSlash_no_slash g hg2]
  have hfilter : ([f, g]).filter (fun s => s ≠ []) = [f, g] := by
    simp [hf1, hg1]
  unfold posixNormalize
  rw [if_neg hp, hsplit, hfilter, decide_eq_false hhead, decide_eq_false hlast]
  exact posixNormalizeCore_two_segs f g hf1 hf3 hf4 hg3 hg4

theorem posix_join_safe (a b : String) (ha : path_safe a) (hb : path_safe b) :
    posix_join a b = a ++ "/" ++ b := by
  obtain ⟨ha1, ha2, ha3, ha4⟩ := ha
  obtain ⟨hb1, hb2, hb3, hb4⟩ := hb
  unfold posix_join
  rw [if_neg (fun h => ha1 h.1), if_neg ha1, if_neg hb1,
      posixNormalize_safe a.data b.data ha1 ha2 ha3 ha4 hb1 hb2 hb3 hb4]
  apply String.ext
  show a.data ++ '/' :: b.data = (a ++ "/" ++ b).data
  rw [String.data_append, String.data_append]
  simp

theorem path_safe_avif_name (slug uuid : String)
    (hs : '/' ∉ slug.data) (hu : '/' ∉ uuid.data) :
    path_safe (slug ++ "-" ++ uuid ++ "." ++ fileExtension) := by
  have hdata : (slug ++ "-" ++ uuid ++ "." ++ fileExtension).data
      = slug.data ++ '-' :: (uuid.data ++ '.' :: ['a', 'v', 'i', 'f']) := by
    simp [String.data_append, fileExtension]
  refine ⟨?_, ?_, ?_, ?_⟩
  · rw [hdata]; simp
  · rw [hdata]
    intro hmem
    rcases List.mem_append.mp hmem with h | h
    · exact hs h
    · rcases List.mem_cons.mp h with h | h
      · exact absurd h (by decide)
      · rcases List.mem_append.mp h with h | h
        · exact hu h
        · rcases List.mem_cons.mp h with h | h
          · exact absurd h (by decide)
          · exact absurd h (by decide)
  · intro hcon
    have := congrArg List.length (hdata ▸ hcon)
    simp at this
    omega
  · intro hcon
    have := congrArg List.length (hdata ▸ hcon)
    simp at this
    omega

theorem object_key_safe (d : OptimizeImageDestination) (u : String)
    (hf : path_safe d.object_folder) (hs : '/' ∉ d.object_slug.data)
    (hu : '/' ∉ u.data) :
    object_key d u =
      d.object_folder ++ "/" ++ (d.object_slug ++ "-" ++ u ++ "." ++ fileExtension) := by
  unfold object_key
  exact posix_join_safe _ _ hf (path_safe_avif_name _ _ hs hu)

/-! ## Characterization of the pipeline -/

theorem download_image_trace (w : World) (url : String) :
    (download_image w url).2 = [Event.fetchReq url] := by
  unfold download_image
  cases w.fetchResp url with
  | error e => rfl
  | ok v =>
    obtain ⟨status, statusText, body⟩ := v
    by_cases h : 200 ≤ status ∧ status ≤ 299 <;> simp [h]

theorem run_creds_missing (w : World) (env : Env) (u : String) (input : OptimizeImageInput)
    (h : truthy env.DIGITAL_OCEAN_SPACES_ACCESS_KEY = false ∨
         truthy env.DIGITAL_OCEAN_SPACES_SECRET_KEY = false) :
    upload_image_to_digital_ocean_spaces w env u input =
      (.error credentialsErrorMessage, []) := by
  unfold upload_image_to_digital_ocean_spaces
  rcases h with h | h <;> simp [h]

theorem run_creds_ok (w : World) (env : Env) (u : String) (input : OptimizeImageInput)
    (hak : truthy env.DIGITAL_OCEAN_SPACES_ACCESS_KEY = true)
    (hsk : truthy env.DIGITAL_OCEAN_SPACES_SECRET_KEY = true) :
    upload_image_to_digital_ocean_spaces w env u input =
      match try_body w input (object_key input.dest u) with
      | (.ok out, t) => (.ok out, t)
      | (.error e, t) => (.error e, t ++ [Event.consoleError e]) := by
  unfold upload_image_to_digital_ocean_spaces
  simp [hak, hsk]

theorem run_cases (w : World) (env : Env) (u : String) (input : OptimizeImageInput)
    (hak : truthy env.DIGITAL_OCEAN_SPACES_ACCESS_KEY = true)
    (hsk : truthy env.DIGITAL_OCEAN_SPACES_SECRET_KEY = true) :
    (∃ err t, try_body w input (object_key input.dest u) = (.error err, t) ∧
       upload_image_to_digital_ocean_spaces w env u input =
         (.error err, t ++ [Event.consoleError err]))
    ∨ (∃ out t, try_body w input (object_key input.dest u) = (.ok out, t) ∧
       upload_image_to_digital_ocean_spaces w env u input = (.ok out, t)) := by
  rcases htb : try_body w input (object_key input.dest u) with ⟨res, t⟩
  cases res with
  | error err =>
    refine Or.inl ⟨err, t, rfl, ?_⟩
    rw [run_creds_ok w env u input hak hsk, htb]
  | ok out =>
    refine Or.inr ⟨out, t, rfl, ?_⟩
    rw [run_creds_ok w env u input hak hsk, htb]

theorem try_body_acquire_error (w : World) (input : OptimizeImageInput) (k : String)
    (e : String) (t : List Event) (h : acquire w input.source = (.error e, t)) :
    try_body w input k = (.error e, t) := by
  unfold try_body
  rw [h]

theorem try_body_acquire_ok (w : World) (input : OptimizeImageInput) (k : String)
    (buf : List Nat) (t : List Event) (h : acquire w input.source = (.ok buf, t)) :
    try_body w input k =
      match sharp_avif_toBuffer w buf 85 with
      | .error e => (.error e, t ++ [Event.transcode buf 85])
      | .ok avifBuffer =>
        match w.uploadOutcome input.dest.bucket_name k avifBuffer with
        | .error e =>
          (.error e,
           t ++ [Event.transcode buf 85,
                 Event.uploadReq input.dest.bucket_name k avifBuffer
                   "public-read" "image/avif"])
        | .ok _ =>
          (.ok ⟨result_url input.dest k⟩,
           t ++ [Event.transcode buf 85,
                 Event.uploadReq input.dest.bucket_name k avifBuffer
                   "public-read" "image/avif",
                 Event.consoleLog (success_log input.source input.dest k)]) := by
  unfold try_body
  rw [h]

theorem try_body_cases (w : World) (input : OptimizeImageInput) (k : String) :
    (∃ err t, acquire w input.source = (.error err, t) ∧
       try_body w input k = (.error err, t))
    ∨ (∃ buf t, acquire w input.source = (.ok buf, t) ∧ w.decodable buf = false ∧
       try_body w input k =
         (.error "Input buffer contains unsupported image format",
          t ++ [Event.transcode buf 85]))
    ∨ (∃ buf t err, acquire w input.source = (.ok buf, t) ∧ w.decodable buf = true ∧
       w.uploadOutcome input.dest.bucket_name k (w.avifEncode buf 85) = .error err ∧
       try_body w input k =
         (.error err,
          t ++ [Event.transcode buf 85,
                Event.uploadReq input.dest.bucket_name k (w.avifEncode buf 85)
                  "public-read" "image/avif"]))
    ∨ (∃ buf t, acquire w input.source = (.ok buf, t) ∧ w.decodable buf = true ∧
       w.uploadOutcome input.dest.bucket_name k (w.avifEncode buf 85) = .ok () ∧
       try_body w input k =
         (.ok ⟨result_url input.dest k⟩,
          t ++ [Event.transcode buf 85,
                Event.uploadReq input.dest.bucket_name k (w.avifEncode buf 85)
                  "public-read" "image/avif",
                Event.consoleLog (success_log input.source input.dest k)])) := by
  rcases hacq : acquire w input.source with ⟨res, tr⟩
  cases res with
  | error err =>
    exact Or.inl ⟨err, tr, rfl, try_body_acquire_error w input k err tr hacq⟩
  | ok buf =>
    have hstep := try_body_acquire_ok w input k buf tr hacq
    cases hdec : w.decodable buf with
    | false =>
      refine Or.inr (Or.inl ⟨buf, tr, rfl, hdec, ?_⟩)
      rw [hstep]
      simp [sharp_avif_toBuffer, hdec]
    | true =>
      cases hup : w.uploadOutcome input.dest.bucket_name k (w.avifEncode buf 85) with
      | error err =>
        refine Or.inr (Or.inr (Or.inl ⟨buf, tr, err, rfl, hdec, hup, ?_⟩))
        rw [hstep]
        simp [sharp_avif_toBuffer, hdec, hup]
      | ok x =>
        cases x
        refine Or.inr (Or.inr (Or.inr ⟨buf, tr, rfl, hdec, hup, ?_⟩))
        rw [hstep]
        simp [sharp_avif_toBuffer, hdec, hup]

theorem acquire_events (w : World) (s : OptimizeImageSource) :
    ∀ e ∈ (acquire w s).2, is_acquisition e = true := by
  intro e he
  unfold acquire at he
  by_cases h1 : s.type = "local"
  · simp [h1] at he
    subst he
    rfl
  · by_cases h2 : s.type = "remote"
    · rw [if_neg h1, if_pos h2] at he
      rw [download_image_trace] at he
      simp at he
      subst he
      rfl
    · simp [h1, h2] at he

theorem object_key_data (d : OptimizeImageDestination) (u : String)
    (hf : path_safe d.object_folder) (hsl : '/' ∉ d.object_slug.data)
    (hu : '/' ∉ u.data) :
    (object_key d u).data =
      d.object_folder.data ++
        '/' :: (d.object_slug.data ++ '-' :: (u.data ++ ['.', 'a', 'v', 'i', 'f'])) := by
  rw [object_key_safe d u hf hsl hu]
  simp [String.data_append, fileExtension]

theorem try_body_transcode_events (w : World) (input : OptimizeImageInput) (k : String) :
    ∀ e ∈ (try_body w input k).2, ∀ b q, e = Event.transcode b q → q = 85 := by
  intro e he b q heq
  subst heq
  have hacq_ev := acquire_events w input.source
  rcases try_body_cases w input k with
    ⟨err, t, hacq, htb⟩ | ⟨buf, t, hacq, hdec, htb⟩ |
    ⟨buf, t, err, hacq, hdec, hup, htb⟩ | ⟨buf, t, hacq, hdec, hup, htb⟩ <;>
    rw [htb] at he <;> rw [hacq] at hacq_ev
  · have hq := hacq_ev _ he
    simp [is_acquisition] at hq
  · rcases List.mem_append.mp he with h | h
    · have hq := hacq_ev _ h
      simp [is_acquisition] at hq
    · simp at h
      exact h.2
  · rcases List.mem_append.mp he with h | h
    · have hq := hacq_ev _ h
      simp [is_acquisition] at hq
    · simp at h
      exact h.2
  · rcases List.mem_append.mp he with h | h
    · have hq := hacq_ev _ h
      simp [is_acquisition] at hq
    · simp at h
      exact h.2

theorem run_ok_characterization (w : World) (env : Env) (u : String)
    (input : OptimizeImageInput) (out : OptimizeImageOutput)
    (h : (upload_image_to_digital_ocean_spaces w env u input).1 = .ok out) :
    out = ⟨result_url input.dest (object_key input.dest u)⟩
    ∧ ∃ body, Event.uploadReq input.dest.bucket_name (object_key input.dest u) body
        "public-read" "image/avif" ∈
          (upload_image_to_digital_ocean_spaces w env u input).2 := by
  cases hak : truthy env.DIGITAL_OCEAN_SPACES_ACCESS_KEY with
  | false =>
    rw [run_creds_missing w env u input (Or.inl hak)] at h
    simp at h
  | true =>
    cases hsk : truthy env.DIGITAL_OCEAN_SPACES_SECRET_KEY with
    | false =>
      rw [run_creds_missing w env u input (Or.inr hsk)] at h
      simp at h
    | true =>
      rcases run_cases w env u input hak hsk with ⟨err, t, htb, hrun⟩ | ⟨out2, t, htb, hrun⟩
      · rw [hrun] at h
        simp at h
      · rw [hrun] at h
        simp at h
        subst h
        rcases try_body_cases w input (object_key input.dest u) with
          ⟨err, t', hacq, htb'⟩ | ⟨buf, t', hacq, hdec, htb'⟩ |
          ⟨buf, t', err, hacq, hdec, hup, htb'⟩ | ⟨buf, t', hacq, hdec, hup, htb'⟩ <;>
          rw [htb'] at htb
        · simp at htb
        · simp at htb
        · simp at htb
        · rw [Prod.mk.injEq] at htb
          obtain ⟨hout, ht⟩ := htb
          have hout2 : out2 = ⟨result_url input.dest (object_key input.dest u)⟩ := by
            injection hout with hout
            exact hout.symm
          refine ⟨hout2, w.avifEncode buf 85, ?_⟩
          rw [hrun]
          rw [← ht]
          simp

/-! ## Claims -/

/-- Claim C1: if either credential environment value is absent (undefined or
empty), the operation fails immediately with the configuration error message
and with an empty effect trace, so no network call, file read, transcode, or
storage-client upload is attempted, for every input. -/
theorem C1_missing_credentials_fail_fast (w : World) (env : Env) (u : String)
    (input : OptimizeImageInput)
    (h : truthy env.DIGITAL_OCEAN_SPACES_ACCESS_KEY = false ∨
         truthy env.DIGITAL_OCEAN_SPACES_SECRET_KEY = false) :
    upload_image_to_digital_ocean_spaces w env u input =
      (.error credentialsErrorMessage, []) :=
  run_creds_missing w env u input h

theorem C1_witness :
    (truthy envMissing.DIGITAL_OCEAN_SPACES_ACCESS_KEY = false ∨
     truthy envMissing.DIGITAL_OCEAN_SPACES_SECRET_KEY = false)
    ∧ upload_image_to_digital_ocean_spaces wOk envMissing "u" inpLocal =
        (.error credentialsErrorMessage, []) :=
  ⟨Or.inl (by decide),
   C1_missing_credentials_fail_fast wOk envMissing "u" inpLocal (Or.inl (by decide))⟩

/-- Claim C2: for every remote input whose HTTP GET response has a non-2xx
status, the pipeline fails with the download failure message and the trace
contains no transcode and no upload event. -/
theorem C2_http_failure_stops_pipeline (w : World) (env : Env) (u : String)
    (input : OptimizeImageInput) (status : Nat) (statusText : String)
    (body : List Nat)
    (hak : truthy env.DIGITAL_OCEAN_SPACES_ACCESS_KEY = true)
    (hsk : truthy env.DIGITAL_OCEAN_SPACES_SECRET_KEY = true)
    (htype : input.source.type = "remote")
    (hfetch : w.fetchResp input.source.file_url = .ok (status, statusText, body))
    (hstatus : ¬ (200 ≤ status ∧ status ≤ 299)) :
    (upload_image_to_digital_ocean_spaces w env u input).1 =
      .error ("Failed to download image from " ++ input.source.file_url ++
        ": " ++ statusText)
    ∧ ∀ e ∈ (upload_image_to_digital_ocean_spaces w env u input).2,
        is_transcode e = false ∧ is_upload e = false := by
  have hacq : acquire w input.source =
      (.error ("Failed to download image from " ++ input.source.file_url ++
         ": " ++ statusText),
       [Event.fetchReq input.source.file_url]) := by
    unfold acquire
    rw [htype, if_neg (by decide : ¬ ("remote" : String) = "local"), if_pos rfl]
    unfold download_image
    rw [hfetch]
    simp [hstatus]
  have hrun := run_creds_ok w env u input hak hsk
  rw [try_body_acquire_error w input (object_key input.dest u) _ _ hacq] at hrun
  rw [hrun]
  refine ⟨rfl, ?_⟩
  intro e he
  simp at he
  rcases he with he | he <;> subst he <;> exact ⟨rfl, rfl⟩

theorem C2_witness :
    (upload_image_to_digital_ocean_spaces wHttp404 env0 "u" inpRemote).1 =
      .error ("Failed to download image from " ++ "http://x/i.png" ++
        ": " ++ "Not Found")
    ∧ ∀ e ∈ (upload_image_to_digital_ocean_spaces wHttp404 env0 "u" inpRemote).2,
        is_transcode e = false ∧ is_upload e = false :=
  C2_http_failure_stops_pipeline wHttp404 env0 "u" inpRemote 404 "Not Found" []
    (by decide) (by decide) rfl rfl (by decide)

/-- Claim C3 counterexample: with the access key unset, the operation fails
with the configuration error, yet its trace contains no `console.error`
event at all — the spec sentence that every error, including the
missing-credentials one, is caught at the pipeline boundary and logged is
false at this input: the credential check throws before the try block. -/
theorem C3_counterexample_config_error_not_logged :
    (upload_image_to_digital_ocean_spaces wOk envMissing "u" inpLocal).1 =
      .error credentialsErrorMessage
    ∧ ∀ e ∈ (upload_image_to_digital_ocean_spaces wOk envMissing "u" inpLocal).2,
        ∀ m, e ≠ Event.consoleError m := by
  rw [run_creds_missing wOk envMissing "u" inpLocal (Or.inl rfl)]
  exact ⟨rfl, by intro e he; simp at he⟩

/-- Claim C3 (amended): every error raised inside the try block — acquisition,
transcoding, upload, or invalid input type — is caught at the pipeline
boundary, logged via `console.error` with the same message, and rethrown to
the caller unmodified; the missing-credentials configuration error is thrown
before the try block and reaches the caller unmodified but without being
logged.  No error is swallowed and no fallback value is returned. -/
theorem C3_error_logging_amended (w : World) (env : Env) (u : String)
    (input : OptimizeImageInput) :
    (∀ msg, truthy env.DIGITAL_OCEAN_SPACES_ACCESS_KEY = true →
      truthy env.DIGITAL_OCEAN_SPACES_SECRET_KEY = true →
      (upload_image_to_digital_ocean_spaces w env u input).1 = .error msg →
      Event.consoleError msg ∈ (upload_image_to_digital_ocean_spaces w env u input).2)
    ∧ ((truthy env.DIGITAL_OCEAN_SPACES_ACCESS_KEY = false ∨
        truthy env.DIGITAL_OCEAN_SPACES_SECRET_KEY = false) →
      upload_image_to_digital_ocean_spaces w env u input =
        (.error credentialsErrorMessage, [])) := by
  constructor
  · intro msg hak hsk herr
    rcases run_cases w env u input hak hsk with ⟨err, t, htb, hrun⟩ | ⟨out, t, htb, hrun⟩
    · rw [hrun] at herr ⊢
      simp at herr
      subst herr
      simp
    · rw [hrun] at herr
      simp at herr
  · exact run_creds_missing w env u input

theorem C3_witness :
    Event.consoleError
        ("Failed to download image from " ++ "http://x/i.png" ++ ": " ++ "Not Found")
      ∈ (upload_image_to_digital_ocean_spaces wHttp404 env0 "u" inpRemote).2 :=
  (C3_error_logging_amended wHttp404 env0 "u" inpRemote).1 _
    (by decide) (by decide) (by decide)

/-- Claim C4: for path-safe folder and slug, the generated object key is
exactly `folder/slug-<uuid>.avif`, and two keys generated for the same
destination from distinct identifiers are distinct. -/
theorem C4_object_key_format_and_uniqueness (d : OptimizeImageDestination)
    (u1 u2 : String) (hf : path_safe d.object_folder)
    (hsl : path_safe d.object_slug)
    (hu1 : '/' ∉ u1.data) (hu2 : '/' ∉ u2.data) (hne : u1 ≠ u2) :
    object_key d u1 =
      d.object_folder ++ "/" ++ d.object_slug ++ "-" ++ u1 ++ ".avif"
    ∧ object_key d u1 ≠ object_key d u2 := by
  constructor
  · apply String.ext
    rw [object_key_data d u1 hf hsl.2.1 hu1]
    simp [String.data_append]
  · intro hkey
    have hd := congrArg String.data hkey
    rw [object_key_data d u1 hf hsl.2.1 hu1,
        object_key_data d u2 hf hsl.2.1 hu2] at hd
    have h1 := List.append_cancel_left hd
    injection h1 with _ h2
    have h3 := List.append_cancel_left h2
    injection h3 with _ h4
    exact hne (String.ext (List.append_cancel_right h4))

theorem C4_witness :
    path_safe dest0.object_folder ∧ ("ua" : String) ≠ "ub"
    ∧ object_key dest0 "ua" =
        dest0.object_folder ++ "/" ++ dest0.object_slug ++ "-" ++ "ua" ++ ".avif"
    ∧ object_key dest0 "ua" ≠ object_key dest0 "ub" :=
  ⟨by decide, by decide,
   C4_object_key_format_and_uniqueness dest0 "ua" "ub"
     (by decide) (by decide) (by decide) (by decide) (by decide)⟩

/-- Claim C5: on every successful invocation the returned URL is exactly
`https://{bucket}.{region}.cdn.digitaloceanspaces.com/{object_key}`, with
the bucket equal to `dest.bucket_name` and the object key equal to the `Key`
of the upload request recorded in the trace. -/
theorem C5_result_url_matches_upload_key (w : World) (env : Env) (u : String)
    (input : OptimizeImageInput) (out : OptimizeImageOutput)
    (h : (upload_image_to_digital_ocean_spaces w env u input).1 = .ok out) :
    out.optimized_img_url =
      "https://" ++ input.dest.bucket_name ++ "." ++ REGION ++
        ".cdn.digitaloceanspaces.com/" ++ object_key input.dest u
    ∧ ∃ body, Event.uploadReq input.dest.bucket_name (object_key input.dest u)
        body "public-read" "image/avif" ∈
          (upload_image_to_digital_ocean_spaces w env u input).2 := by
  obtain ⟨hout, hmem⟩ := run_ok_characterization w env u input out h
  refine ⟨?_, hmem⟩
  rw [hout]
  rfl

theorem C5_witness :
    (⟨"https://assets.nyc3.cdn.digitaloceanspaces.com/img/hero-u.avif"⟩ :
        OptimizeImageOutput).optimized_img_url =
      "https://" ++ inpLocal.dest.bucket_name ++ "." ++ REGION ++
        ".cdn.digitaloceanspaces.com/" ++ object_key inpLocal.dest "u"
    ∧ ∃ body, Event.uploadReq inpLocal.dest.bucket_name
        (object_key inpLocal.dest "u") body "public-read" "image/avif" ∈
          (upload_image_to_digital_ocean_spaces wOk env0 "u" inpLocal).2 :=
  C5_result_url_matches_upload_key wOk env0 "u" inpLocal
    ⟨"https://assets.nyc3.cdn.digitaloceanspaces.com/img/hero-u.avif"⟩ (by decide)

/-- Claim C6: for every input the operation yields either a full
`OptimizeImageOutput` value or an error, never both and never a partial
result. -/
theorem C6_full_result_or_error (w : World) (env : Env) (u : String)
    (input : OptimizeImageInput) :
    (∃ url, (upload_image_to_digital_ocean_spaces w env u input).1 = .ok ⟨url⟩
      ∧ ∀ e, (upload_image_to_digital_ocean_spaces w env u input).1 ≠ .error e)
    ∨ (∃ e, (upload_image_to_digital_ocean_spaces w env u input).1 = .error e
      ∧ ∀ out : OptimizeImageOutput,
          (upload_image_to_digital_ocean_spaces w env u input).1 ≠ .ok out) := by
  cases hres : (upload_image_to_digital_ocean_spaces w env u input).1 with
  | ok out =>
    exact Or.inl ⟨out.optimized_img_url, rfl, by intro e hcon; simp at hcon⟩
  | error e =>
    exact Or.inr ⟨e, rfl, by intro o hcon; simp at hcon⟩

/-- Claim C7: the transcoding step produces the AVIF encoding of its input
at the requested quality and fails exactly when the input is not decodable;
every transcode invocation the pipeline makes uses the fixed quality 85. -/
theorem C7_transcoding_contract (w : World) (buf : List Nat) (q : Nat)
    (env : Env) (u : String) (input : OptimizeImageInput) :
    (w.decodable buf = true →
      sharp_avif_toBuffer w buf q = .ok (w.avifEncode buf q))
    ∧ (w.decodable buf = false →
      sharp_avif_toBuffer w buf q =
        .error "Input buffer contains unsupported image format")
    ∧ (∀ e ∈ (upload_image_to_digital_ocean_spaces w env u input).2,
        ∀ b qq, e = Event.transcode b qq → qq = 85) := by
  refine ⟨fun h => by simp [sharp_avif_toBuffer, h],
    fun h => by simp [sharp_avif_toBuffer, h], ?_⟩
  intro e he b qq heq
  cases hak : truthy env.DIGITAL_OCEAN_SPACES_ACCESS_KEY with
  | false =>
    rw [run_creds_missing w env u input (Or.inl hak)] at he
    simp at he
  | true =>
    cases hsk : truthy env.DIGITAL_OCEAN_SPACES_SECRET_KEY with
    | false =>
      rw [run_creds_missing w env u input (Or.inr hsk)] at he
      simp at he
    | true =>
      rcases run_cases w env u input hak hsk with
        ⟨err, t, htb, hrun⟩ | ⟨out, t, htb, hrun⟩ <;> rw [hrun] at he
      · have ht : (try_body w input (object_key input.dest u)).2 = t := by
          rw [htb]
        rcases List.mem_append.mp he with hm | hm
        · exact try_body_transcode_events w input (object_key input.dest u)
            e (ht ▸ hm) b qq heq
        · simp at hm
          subst hm
          simp at heq
      · have ht : (try_body w input (object_key input.dest u)).2 = t := by
          rw [htb]
        exact try_body_transcode_events w input (object_key input.dest u)
          e (ht ▸ he) b qq heq

theorem C7_witness :
    sharp_avif_toBuffer wOk [9] 85 = .ok (wOk.avifEncode [9] 85) :=
  (C7_transcoding_contract wOk [9] 85 env0 "u" inpLocal).1 rfl

/-- Claim C8: for a local input whose path is on disk, acquisition yields
exactly the on-disk bytes (the transcoder is invoked on precisely those
bytes after the file-read effect); for a path not on disk, the operation
fails with the read error and no transcode or upload is attempted. -/
theorem C8_local_acquisition (w : World) (env : Env) (u : String)
    (input : OptimizeImageInput) (bytes : List Nat)
    (hak : truthy env.DIGITAL_OCEAN_SPACES_ACCESS_KEY = true)
    (hsk : truthy env.DIGITAL_OCEAN_SPACES_SECRET_KEY = true)
    (htype : input.source.type = "local") :
    (w.fsFiles input.source.file_path = some bytes →
      Event.fileRead input.source.file_path ∈
          (upload_image_to_digital_ocean_spaces w env u input).2
      ∧ Event.transcode bytes 85 ∈
          (upload_image_to_digital_ocean_spaces w env u input).2)
    ∧ (w.fsFiles input.source.file_path = none →
      (upload_image_to_digital_ocean_spaces w env u input).1 =
        .error ("ENOENT: no such file or directory, open \x27" ++
          input.source.file_path ++ "\x27")
      ∧ ∀ e ∈ (upload_image_to_digital_ocean_spaces w env u input).2,
          is_transcode e = false ∧ is_upload e = false) := by
  constructor
  · intro hfs
    have hacq : acquire w input.source =
        (.ok bytes, [Event.fileRead input.source.file_path]) := by
      unfold acquire
      rw [htype, if_pos rfl]
      unfold fs_readFile
      rw [hfs]
    have hrun := run_creds_ok w env u input hak hsk
    rcases try_body_cases w input (object_key input.dest u) with
      ⟨err, t, hacq', htb⟩ | ⟨bf, t, hacq', hdec, htb⟩ |
      ⟨bf, t, err, hacq', hdec, hup, htb⟩ | ⟨bf, t, hacq', hdec, hup, htb⟩ <;>
      rw [hacq] at hacq' <;> rw [htb] at hrun <;> rw [hrun]
    · simp at hacq'
    all_goals
      simp only [Prod.mk.injEq, Except.ok.injEq] at hacq'
      obtain ⟨hb, htr⟩ := hacq'
      subst hb
      subst htr
      simp
  · intro hfs
    have hacq : acquire w input.source =
        (.error ("ENOENT: no such file or directory, open \x27" ++
           input.source.file_path ++ "\x27"),
         [Event.fileRead input.source.file_path]) := by
      unfold acquire
      rw [htype, if_pos rfl]
      unfold fs_readFile
      rw [hfs]
    have hrun := run_creds_ok w env u input hak hsk
    rw [try_body_acquire_error w input (object_key input.dest u) _ _ hacq] at hrun
    rw [hrun]
    refine ⟨rfl, ?_⟩
    intro e he
    simp at he
    rcases he with he | he <;> subst he <;> exact ⟨rfl, rfl⟩

theorem C8_witness :
    Event.fileRead "/tmp/a.png" ∈
        (upload_image_to_digital_ocean_spaces wOk env0 "u" inpLocal).2
    ∧ Event.transcode [1, 2, 3] 85 ∈
        (upload_image_to_digital_ocean_spaces wOk env0 "u" inpLocal).2 :=
  (C8_local_acquisition wOk env0 "u" inpLocal [1, 2, 3]
    (by decide) (by decide) rfl).1 rfl

/-- Claim C9: when the source type is neither "local" nor "remote" and the
credentials are present, the operation fails with `Invalid input type` and
the only event in the trace is the boundary `console.error`, so no
acquisition, transcoding, or upload is performed. -/
theorem C9_invalid_input_type (w : World) (env : Env) (u : String)
    (input : OptimizeImageInput)
    (hak : truthy env.DIGITAL_OCEAN_SPACES_ACCESS_KEY = true)
    (hsk : truthy env.DIGITAL_OCEAN_SPACES_SECRET_KEY = true)
    (h1 : input.source.type ≠ "local") (h2 : input.source.type ≠ "remote") :
    upload_image_to_digital_ocean_spaces w env u input =
      (.error "Invalid input type",
       [Event.consoleError "Invalid input type"]) := by
  have hacq : acquire w input.source = (.error "Invalid input type", []) := by
    unfold acquire
    rw [if_neg h1, if_neg h2]
  rw [run_creds_ok w env u input hak hsk,
      try_body_acquire_error w input (object_key input.dest u) _ _ hacq]
  rfl

theorem C9_witness :
    upload_image_to_digital_ocean_spaces wOk env0 "u" inpBadType =
      (.error "Invalid input type",
       [Event.consoleError "Invalid input type"]) :=
  C9_invalid_input_type wOk env0 "u" inpBadType
    (by decide) (by decide) (by decide) (by decide)

/-- Claim C10: the object key and the result URL depend only on the
destination fields and the generated identifier: two successful runs with
equal `dest` and equal identifiers but arbitrary (different) worlds,
environments, sources, and image contents return equal outputs, both upload
under the same key `object_key d u`, and the region segment of the URL is
the literal "nyc3". -/
theorem C10_key_url_independent_of_source (w1 w2 : World) (env1 env2 : Env)
    (s1 s2 : OptimizeImageSource) (d : OptimizeImageDestination) (u : String)
    (o1 o2 : OptimizeImageOutput)
    (h1 : (upload_image_to_digital_ocean_spaces w1 env1 u ⟨s1, d⟩).1 = .ok o1)
    (h2 : (upload_image_to_digital_ocean_spaces w2 env2 u ⟨s2, d⟩).1 = .ok o2) :
    o1 = o2
    ∧ o1.optimized_img_url =
        "https://" ++ d.bucket_name ++ "." ++ "nyc3" ++
          ".cdn.digitaloceanspaces.com/" ++ object_key d u
    ∧ (∃ b1, Event.uploadReq d.bucket_name (object_key d u) b1
        "public-read" "image/avif" ∈
          (upload_image_to_digital_ocean_spaces w1 env1 u ⟨s1, d⟩).2)
    ∧ (∃ b2, Event.uploadReq d.bucket_name (object_key d u) b2
        "public-read" "image/avif" ∈
          (upload_image_to_digital_ocean_spaces w2 env2 u ⟨s2, d⟩).2) := by
  obtain ⟨ho1, hm1⟩ := run_ok_characterization w1 env1 u ⟨s1, d⟩ o1 h1
  obtain ⟨ho2, hm2⟩ := run_ok_characterization w2 env2 u ⟨s2, d⟩ o2 h2
  refine ⟨ho1.trans ho2.symm, ?_, hm1, hm2⟩
  rw [ho1]
  rfl

theorem C10_witness :
    (⟨"https://assets.nyc3.cdn.digitaloceanspaces.com/img/hero-u.avif"⟩ :
        OptimizeImageOutput) =
      ⟨"https://assets.nyc3.cdn.digitaloceanspaces.com/img/hero-u.avif"⟩
    ∧ (⟨"https://assets.nyc3.cdn.digitaloceanspaces.com/img/hero-u.avif"⟩ :
        OptimizeImageOutput).optimized_img_url =
      "https://" ++ dest0.bucket_name ++ "." ++ "nyc3" ++
        ".cdn.digitaloceanspaces.com/" ++ object_key dest0 "u"
    ∧ (∃ b1, Event.uploadReq dest0.bucket_name (object_key dest0 "u") b1
        "public-read" "image/avif" ∈
          (upload_image_to_digital_ocean_spaces wOk env0 "u"
            ⟨inpLocal.source, dest0⟩).2)
    ∧ (∃ b2, Event.uploadReq dest0.bucket_name (object_key dest0 "u") b2
        "public-read" "image/avif" ∈
          (upload_image_to_digital_ocean_spaces wOk env0 "u"
            ⟨inpRemote.source, dest0⟩).2) :=
  C10_key_url_independent_of_source wOk wOk env0 env0
    inpLocal.source inpRemote.source dest0 "u"
    ⟨"https://assets.nyc3.cdn.digitaloceanspaces.com/img/hero-u.avif"⟩
    ⟨"https://assets.nyc3.cdn.digitaloceanspaces.com/img/hero-u.avif"⟩
    (by decide) (by decide)

end TriggerSharp
